import Mathlib

/-!
Shallow embedding of the `diesel_load_extension` crate (`src/lib.rs`,
`src/errors.rs`, `src/ffi.rs`).

The SQLite engine is modelled as a black-box deterministic state machine
(`Engine σ`): each native primitive (`sqlite3_enable_load_extension`,
`sqlite3_load_extension`, `sqlite3_errmsg`, `sqlite3_free`) is a field of the
structure, and every wrapper function additionally records the sequence of
native calls it performs in a `Trace`, so that claims about "which native
calls happen" are statable.

Rust strings crossing the FFI boundary are modelled as byte lists (`RStr`);
`CString::new` fails exactly when the byte list contains a `0` byte.

Panics (Rust `catch_unwind` / `resume_unwind` in `with_extension_enabled`)
are modelled by the `Outcome.panicked` constructor carrying an opaque payload
together with the engine state and trace accumulated before the unwind.
-/

namespace DieselLoadExtension

/-- A Rust string / C string as it crosses the FFI boundary: a list of bytes. -/
abbrev RStr := List Nat

/-- Whether the byte string contains a null byte (`CString::new` rejects it). -/
def hasNulByte (s : RStr) : Bool := s.contains 0

/-- `CString::new`: succeeds (returning the same bytes) iff no null byte. -/
def cstringNew (s : RStr) : Option RStr :=
  if hasNulByte s then none else some s

/-- `LoadExtensionError` from `src/errors.rs`. -/
inductive LoadExtensionError where
  | EnableFailed (msg : RStr)
  | LoadFailed (msg : RStr)
  | InvalidPath
  | InvalidEntryPoint
  | UnsupportedPlatform
deriving DecidableEq, Repr

/-- An extension request: `(&str, Option<&str>)` — path and optional entry point. -/
abbrev Request := RStr × Option RStr

/-- Validation of one request, mirroring the closure body of `validate_inputs`
in `src/lib.rs` lines 147–152: the path is converted first (`InvalidPath` on
a null byte), then the optional entry point (`InvalidEntryPoint`). -/
def validateRequest (r : Request) : Except LoadExtensionError Request :=
  match cstringNew r.1 with
  | none => .error .InvalidPath
  | some cp =>
    match r.2 with
    | none => .ok (cp, none)
    | some ep =>
      match cstringNew ep with
      | none => .error .InvalidEntryPoint
      | some ce => .ok (cp, some ce)

/-- `validate_inputs` (`src/lib.rs` 142–155): `iter().map(...).collect::<Result<Vec<_>,_>>()`
converts every request in order, stopping at the first failure. -/
def validate_inputs : List Request → Except LoadExtensionError (List Request)
  | [] => .ok []
  | r :: rest =>
    match validateRequest r with
    | .error e => .error e
    | .ok v =>
      match validate_inputs rest with
      | .error e => .error e
      | .ok vs => .ok (v :: vs)

/-- `SQLITE_OK` status code. -/
def SQLITE_OK : Int := 0

/-- One native call into the engine, as observed at the FFI boundary. -/
inductive NativeCall where
  | enableCall (onoff : Bool)
  | loadCall (path : RStr) (entry : Option RStr)
  | errmsgCall
  | freeCall
deriving DecidableEq, Repr

/-- The sequence of native calls performed by an operation. -/
abbrev Trace := List NativeCall

/-- The SQLite engine as a black-box deterministic state machine over an
abstract state type `σ`:
* `enableRC s b` — status code of `sqlite3_enable_load_extension` at state `s`;
* `enableStep s b` — engine state after that call;
* `loadRC s p e` — status code of `sqlite3_load_extension`;
* `loadErrMsg s p e` — the error-message out-parameter after that call
  (`none` models a null pointer);
* `loadStep s p e` — engine state after the load call;
* `errmsg s` — `sqlite3_errmsg`, always a valid (non-null) string. -/
structure Engine (σ : Type) where
  enableRC : σ → Bool → Int
  enableStep : σ → Bool → σ
  loadRC : σ → RStr → Option RStr → Int
  loadErrMsg : σ → RStr → Option RStr → Option RStr
  loadStep : σ → RStr → Option RStr → σ
  errmsg : σ → RStr

/-- `enable_load_extension` (`src/lib.rs` 170–190): call the toggle primitive;
on a non-OK status fetch `sqlite3_errmsg` and return `EnableFailed`. The
result is the `Result`, the engine state afterwards, and the native calls
performed. -/
def enable_load_extension {σ : Type} (E : Engine σ) (enabled : Bool) (s : σ) :
    Except LoadExtensionError Unit × σ × Trace :=
  let rc := E.enableRC s enabled
  let s1 := E.enableStep s enabled
  if rc ≠ SQLITE_OK then
    (.error (.EnableFailed (E.errmsg s1)), s1, [.enableCall enabled, .errmsgCall])
  else
    (.ok (), s1, [.enableCall enabled])

/-- `raw_load_extension` (`src/lib.rs` 263–300): call the load primitive with
an error-message out-parameter. On a non-OK status: if the out-parameter is
non-null, copy the message and free the engine buffer (`sqlite3_free`);
otherwise fall back to `sqlite3_errmsg`. On success the out-parameter is
never touched. -/
def raw_load_extension {σ : Type} (E : Engine σ) (c_path : RStr)
    (c_entry : Option RStr) (s : σ) :
    Except LoadExtensionError Unit × σ × Trace :=
  let rc := E.loadRC s c_path c_entry
  let em := E.loadErrMsg s c_path c_entry
  let s1 := E.loadStep s c_path c_entry
  if rc ≠ SQLITE_OK then
    match em with
    | none =>
      (.error (.LoadFailed (E.errmsg s1)), s1, [.loadCall c_path c_entry, .errmsgCall])
    | some msg =>
      (.error (.LoadFailed msg), s1, [.loadCall c_path c_entry, .freeCall])
  else
    (.ok (), s1, [.loadCall c_path c_entry])

/-- The observable outcome of a guarded operation: either a normal return
carrying the `Result`, or a propagating panic (`resume_unwind`) carrying the
payload. Both record the final engine state and the full native-call trace. -/
inductive Outcome (σ : Type) (T : Type) where
  | ret (r : Except LoadExtensionError T) (s : σ) (t : Trace)
  | panicked (payload : Nat) (s : σ) (t : Trace)
deriving Repr

/-- The native-call trace of an outcome. -/
def Outcome.trace {σ T : Type} : Outcome σ T → Trace
  | .ret _ _ t => t
  | .panicked _ _ t => t

/-- The panic payload, when the outcome is a propagating panic. -/
def Outcome.panicPayload {σ T : Type} : Outcome σ T → Option Nat
  | .ret _ _ _ => none
  | .panicked p _ _ => some p

/-- `with_extension_enabled` (`src/lib.rs` 226–248): enable the toggle
(propagating its error with `?`), run `f` under `catch_unwind`, always call
`enable_load_extension(false)` afterwards, then: on a normal closure result
propagate the inner error first (`let value = inner?;`), then the disable
error (`disable_result?`); on a caught panic discard the disable result and
`resume_unwind` the payload. -/
def with_extension_enabled {σ T : Type} (E : Engine σ)
    (f : σ → Outcome σ T) (s : σ) : Outcome σ T :=
  match enable_load_extension E true s with
  | (.error e, s1, t1) => .ret (.error e) s1 t1
  | (.ok _, s1, t1) =>
    match f s1 with
    | .ret inner s2 t2 =>
      let d := enable_load_extension E false s2
      let tr := t1 ++ t2 ++ d.2.2
      match inner with
      | .error e => .ret (.error e) d.2.1 tr
      | .ok v =>
        match d.1 with
        | .error e => .ret (.error e) d.2.1 tr
        | .ok _ => .ret (.ok v) d.2.1 tr
    | .panicked p s2 t2 =>
      let d := enable_load_extension E false s2
      .panicked p d.2.1 (t1 ++ t2 ++ d.2.2)

/-- The load loop inside `load_extensions` (`src/lib.rs` 218–220): call
`raw_load_extension` for each validated request in order, stopping at the
first failure (`?`). -/
def loadLoop {σ : Type} (E : Engine σ) :
    List Request → σ → Except LoadExtensionError Unit × σ × Trace
  | [], s => (.ok (), s, [])
  | r :: rest, s =>
    match raw_load_extension E r.1 r.2 s with
    | (.ok _, s1, t) =>
      let rec2 := loadLoop E rest s1
      (rec2.1, rec2.2.1, t ++ rec2.2.2)
    | (.error e, s1, t) => (.error e, s1, t)

/-- `load_extensions` (`src/lib.rs` 207–223): empty batch short-circuits to
`Ok(())` with zero native calls; then validate all inputs; then run the load
loop under `with_extension_enabled`. -/
def load_extensions {σ : Type} (E : Engine σ) (exts : List Request) (s : σ) :
    Outcome σ Unit :=
  if exts.isEmpty then .ret (.ok ()) s []
  else
    match validate_inputs exts with
    | .error e => .ret (.error e) s []
    | .ok c_exts =>
      with_extension_enabled E (fun s1 =>
        let r := loadLoop E c_exts s1
        .ret r.1 r.2.1 r.2.2) s

/-- `load_extension` (`src/lib.rs` 192–205): validate the path, then the
entry point, then run one `raw_load_extension` under `with_extension_enabled`. -/
def load_extension {σ : Type} (E : Engine σ) (path : RStr)
    (entry : Option RStr) (s : σ) : Outcome σ Unit :=
  match cstringNew path with
  | none => .ret (.error .InvalidPath) s []
  | some c_path =>
    match entry with
    | none =>
      with_extension_enabled E (fun s1 =>
        let r := raw_load_extension E c_path none s1
        .ret r.1 r.2.1 r.2.2) s
    | some ep =>
      match cstringNew ep with
      | none => .ret (.error .InvalidEntryPoint) s []
      | some c_entry =>
        with_extension_enabled E (fun s1 =>
          let r := raw_load_extension E c_path (some c_entry) s1
          .ret r.1 r.2.1 r.2.2) s

/-- WASM implementation of `enable_load_extension` (`src/lib.rs` 311–313):
unconditionally `UnsupportedPlatform`. -/
def wasm_enable_load_extension (_enabled : Bool) : Except LoadExtensionError Unit :=
  .error .UnsupportedPlatform

/-- WASM implementation of `load_extension` (`src/lib.rs` 315–327): validate
path then entry point, then `UnsupportedPlatform`. -/
def wasm_load_extension (path : RStr) (entry : Option RStr) :
    Except LoadExtensionError Unit :=
  match cstringNew path with
  | none => .error .InvalidPath
  | some _ =>
    match entry with
    | none => .error .UnsupportedPlatform
    | some ep =>
      match cstringNew ep with
      | none => .error .InvalidEntryPoint
      | some _ => .error .UnsupportedPlatform

/-- WASM implementation of `load_extensions` (`src/lib.rs` 329–341): empty
batch short-circuits to `Ok(())`; otherwise validate all inputs, then
`UnsupportedPlatform`. -/
def wasm_load_extensions (exts : List Request) : Except LoadExtensionError Unit :=
  if exts.isEmpty then .ok ()
  else
    match validate_inputs exts with
    | .error e => .error e
    | .ok _ => .error .UnsupportedPlatform

/-- A well-behaved engine: every native call succeeds. Used as a concrete
witness engine; its state is the toggle flag itself. -/
def okEngine : Engine Bool where
  enableRC := fun _ _ => 0
  enableStep := fun _ b => b
  loadRC := fun _ _ _ => 0
  loadErrMsg := fun _ _ _ => none
  loadStep := fun s _ _ => s
  errmsg := fun _ => [101]

/-- A concrete engine whose toggle primitive always fails with status 1. -/
def enableFailEngine : Engine Bool where
  enableRC := fun _ _ => 1
  enableStep := fun _ b => b
  loadRC := fun _ _ _ => 0
  loadErrMsg := fun _ _ _ => none
  loadStep := fun s _ _ => s
  errmsg := fun _ => [101]

/-- A concrete engine whose load primitive always fails with status 1 and
writes the error message `[9]` into the out-parameter. -/
def loadFailEngine : Engine Bool where
  enableRC := fun _ _ => 0
  enableStep := fun _ b => b
  loadRC := fun _ _ _ => 1
  loadErrMsg := fun _ _ _ => some [9]
  loadStep := fun s _ _ => s
  errmsg := fun _ => [101]

/-- A concrete engine whose load primitive always fails with status 1 and
leaves the out-parameter null. -/
def loadFailNoMsgEngine : Engine Bool where
  enableRC := fun _ _ => 0
  enableStep := fun _ b => b
  loadRC := fun _ _ _ => 1
  loadErrMsg := fun _ _ _ => none
  loadStep := fun s _ _ => s
  errmsg := fun _ => [101]

/-- A concrete engine where enabling the toggle succeeds but disabling it
fails with status 1. -/
def disableFailEngine : Engine Bool where
  enableRC := fun _ b => if b then 0 else 1
  enableStep := fun _ b => b
  loadRC := fun _ _ _ => 0
  loadErrMsg := fun _ _ _ => none
  loadStep := fun s _ _ => s
  errmsg := fun _ => [101]

/-- A concrete engine whose load primitive fails exactly on path `[2]`. -/
def failOnPath2Engine : Engine Bool where
  enableRC := fun _ _ => 0
  enableStep := fun _ b => b
  loadRC := fun _ p _ => if p = [2] then 1 else 0
  loadErrMsg := fun _ _ _ => some [9]
  loadStep := fun s _ _ => s
  errmsg := fun _ => [101]

/-- The engine state reached after the load-call state transitions of a list
of requests, in order (each `raw_load_extension` applies `loadStep` exactly
once, whatever its status). -/
def stateAfterLoads {σ : Type} (E : Engine σ) (s : σ) (exts : List Request) : σ :=
  exts.foldl (fun st r => E.loadStep st r.1 r.2) s

/-- The load calls recorded in a trace, in order, as requests. -/
def loadCallsOf (t : Trace) : List Request :=
  t.filterMap fun c =>
    match c with
    | .loadCall p e => some (p, e)
    | _ => none

lemma with_extension_enabled_congr {σ T : Type} (E : Engine σ)
    (f g : σ → Outcome σ T) (s : σ) (h : ∀ x, f x = g x) :
    with_extension_enabled E f s = with_extension_enabled E g s := by
  unfold with_extension_enabled
  simp only [h]

lemma loadLoop_singleton {σ : Type} (E : Engine σ) (r : Request) (s : σ) :
    loadLoop E [r] s =
      ((raw_load_extension E r.1 r.2 s).1,
       (raw_load_extension E r.1 r.2 s).2.1,
       (raw_load_extension E r.1 r.2 s).2.2) := by
  unfold loadLoop
  cases hres : raw_load_extension E r.1 r.2 s with
  | mk res rest =>
    cases rest with
    | mk s1 t =>
      cases res with
      | error e => simp
      | ok v => simp [loadLoop]

lemma mem_enable_trace {σ : Type} (E : Engine σ) (b : Bool) (s : σ) :
    NativeCall.enableCall b ∈ (enable_load_extension E b s).2.2 := by
  by_cases h : E.enableRC s b = SQLITE_OK <;> simp [enable_load_extension, h]

/-- Claim C5: for the empty batch, `load_extensions` returns success
immediately with the engine state untouched and an empty native-call trace:
the toggle is never enabled, never disabled, and no load call is made. -/
theorem empty_batch_no_native_calls {σ : Type} (E : Engine σ) (s : σ) :
    load_extensions E [] s = .ret (.ok ()) s [] := rfl

lemma load_extension_eq_singleton {σ : Type} (E : Engine σ) (p : RStr)
    (e : Option RStr) (s : σ) :
    load_extension E p e s = load_extensions E [(p, e)] s := by
  unfold load_extension load_extensions
  cases hp : cstringNew p with
  | none =>
    simp [validate_inputs, validateRequest, hp]
  | some cp =>
    cases e with
    | none =>
      simp only [List.isEmpty_cons, Bool.false_eq_true, if_false, validate_inputs,
        validateRequest, hp]
      exact with_extension_enabled_congr E _ _ s fun x => by
        simp [loadLoop_singleton]
    | some ep =>
      cases hep : cstringNew ep with
      | none =>
        simp [validate_inputs, validateRequest, hp, hep]
      | some ce =>
        simp only [List.isEmpty_cons, Bool.false_eq_true, if_false, validate_inputs,
          validateRequest, hp, hep]
        exact with_extension_enabled_congr E _ _ s fun x => by
          simp [loadLoop_singleton]

/-- Claim C7: `load_extension path entry` produces exactly the same outcome
— same result, same final engine state, and same native-call sequence — as
`load_extensions` applied to the one-element batch `[(path, entry)]`. -/
theorem load_extension_refines_batch {σ : Type} (E : Engine σ) (p : RStr)
    (e : Option RStr) (s : σ) :
    load_extension E p e s = load_extensions E [(p, e)] s :=
  load_extension_eq_singleton E p e s

lemma enable_state {σ : Type} (E : Engine σ) (b : Bool) (s : σ) :
    (enable_load_extension E b s).2.1 = E.enableStep s b := by
  by_cases h : E.enableRC s b = SQLITE_OK <;> simp [enable_load_extension, h]

lemma cstringNew_some {s c : RStr} (h : cstringNew s = some c) : c = s := by
  unfold cstringNew at h
  by_cases hn : hasNulByte s = true
  · simp [hn] at h
  · simp [hn] at h
    exact h.symm

lemma validateRequest_ok_eq {r v : Request} (h : validateRequest r = .ok v) :
    v = r := by
  obtain ⟨p, e⟩ := r
  unfold validateRequest at h
  cases hp : cstringNew p with
  | none => simp [hp] at h
  | some cp =>
    cases e with
    | none =>
      simp only [hp, Except.ok.injEq] at h
      rw [← h, cstringNew_some hp]
    | some ep =>
      cases hep : cstringNew ep with
      | none => simp [hp, hep] at h
      | some ce =>
        simp only [hp, hep, Except.ok.injEq] at h
        rw [← h, cstringNew_some hp, cstringNew_some hep]

lemma validate_inputs_ok_eq {exts c : List Request}
    (h : validate_inputs exts = .ok c) : c = exts := by
  induction exts generalizing c with
  | nil => simp [validate_inputs] at h; exact h
  | cons r rest ih =>
    unfold validate_inputs at h
    cases hr : validateRequest r with
    | error e => rw [hr] at h; exact absurd h (by simp)
    | ok v =>
      rw [hr] at h
      cases hrest : validate_inputs rest with
      | error e => rw [hrest] at h; exact absurd h (by simp)
      | ok vs =>
        rw [hrest] at h
        simp only [Except.ok.injEq] at h
        rw [← h, validateRequest_ok_eq hr, ih hrest]

lemma load_extensions_unfold {σ : Type} (E : Engine σ) (exts c : List Request)
    (s : σ) (hne : exts ≠ []) (hv : validate_inputs exts = .ok c) :
    load_extensions E exts s =
      with_extension_enabled E (fun s1 =>
        let r := loadLoop E c s1
        .ret r.1 r.2.1 r.2.2) s := by
  have hie : exts.isEmpty = false := by
    cases exts with
    | nil => exact absurd rfl hne
    | cons a l => rfl
  unfold load_extensions
  rw [hie, hv]
  simp

lemma with_run_enable_fail {σ T : Type} (E : Engine σ) (f : σ → Outcome σ T)
    (s : σ) (h : E.enableRC s true ≠ SQLITE_OK) :
    with_extension_enabled E f s =
      .ret (.error (.EnableFailed (E.errmsg (E.enableStep s true))))
        (E.enableStep s true) [.enableCall true, .errmsgCall] := by
  unfold with_extension_enabled
  simp [enable_load_extension, h]

lemma with_run_inner_error {σ T : Type} (E : Engine σ) (f : σ → Outcome σ T)
    (s : σ) (e : LoadExtensionError) (s2 : σ) (t2 : Trace)
    (henb : E.enableRC s true = SQLITE_OK)
    (hf : f (E.enableStep s true) = .ret (.error e) s2 t2) :
    with_extension_enabled E f s =
      .ret (.error e) (E.enableStep s2 false)
        ([NativeCall.enableCall true] ++ t2 ++
          (enable_load_extension E false s2).2.2) := by
  unfold with_extension_enabled
  by_cases h2 : E.enableRC s2 false = SQLITE_OK <;>
    simp [enable_load_extension, henb, hf, h2]

lemma with_run_inner_ok {σ T : Type} (E : Engine σ) (f : σ → Outcome σ T)
    (s : σ) (v : T) (s2 : σ) (t2 : Trace)
    (henb : E.enableRC s true = SQLITE_OK)
    (hf : f (E.enableStep s true) = .ret (.ok v) s2 t2) :
    with_extension_enabled E f s =
      .ret ((enable_load_extension E false s2).1.bind fun _ => .ok v)
        (E.enableStep s2 false)
        ([NativeCall.enableCall true] ++ t2 ++
          (enable_load_extension E false s2).2.2) := by
  unfold with_extension_enabled
  by_cases h2 : E.enableRC s2 false = SQLITE_OK <;>
    simp [enable_load_extension, henb, hf, h2, Except.bind]

lemma with_run_panicked {σ T : Type} (E : Engine σ) (f : σ → Outcome σ T)
    (s : σ) (p : ℕ) (s2 : σ) (t2 : Trace)
    (henb : E.enableRC s true = SQLITE_OK)
    (hf : f (E.enableStep s true) = .panicked p s2 t2) :
    with_extension_enabled E f s =
      .panicked p (E.enableStep s2 false)
        ([NativeCall.enableCall true] ++ t2 ++
          (enable_load_extension E false s2).2.2) := by
  unfold with_extension_enabled
  by_cases h2 : E.enableRC s2 false = SQLITE_OK <;>
    simp [enable_load_extension, henb, hf, h2]

lemma mem_disable_with {σ T : Type} (E : Engine σ) (f : σ → Outcome σ T)
    (s : σ) (henb : E.enableRC s true = SQLITE_OK) :
    NativeCall.enableCall false ∈ (with_extension_enabled E f s).trace := by
  cases hf : f (E.enableStep s true) with
  | ret inner s2 t2 =>
    cases inner with
    | error e =>
      rw [with_run_inner_error E f s e s2 t2 henb hf]
      simp [Outcome.trace, mem_enable_trace]
    | ok v =>
      rw [with_run_inner_ok E f s v s2 t2 henb hf]
      simp [Outcome.trace, mem_enable_trace]
  | panicked p s2 t2 =>
    rw [with_run_panicked E f s p s2 t2 henb hf]
    simp [Outcome.trace, mem_enable_trace]

/-- Claim C1: for every non-empty batch that passes validation and whose
enable step succeeds, the disable call (`enable_load_extension` with `false`)
is invoked before control returns to the caller on every exit path: for
`load_extensions` and `load_extension` this covers normal success and first
load failure (the guarded closure always returns normally there), and for
the guard `with_extension_enabled` itself, when the guarded closure panics
the disable call is still invoked and the panic then continues propagating
with the same payload. -/
theorem disable_invoked_on_every_exit {σ : Type} (E : Engine σ) (s : σ)
    (exts : List Request) (f : σ → Outcome σ Unit) (p : ℕ) (s2 : σ)
    (t2 : Trace) :
    (exts ≠ [] → (∃ c, validate_inputs exts = .ok c) →
      E.enableRC s true = SQLITE_OK →
      NativeCall.enableCall false ∈ (load_extensions E exts s).trace)
    ∧ (∀ path entry v, validateRequest (path, entry) = Except.ok v →
      E.enableRC s true = SQLITE_OK →
      NativeCall.enableCall false ∈ (load_extension E path entry s).trace)
    ∧ (E.enableRC s true = SQLITE_OK →
      f (E.enableStep s true) = .panicked p s2 t2 →
      (with_extension_enabled E f s).panicPayload = some p ∧
      NativeCall.enableCall false ∈ (with_extension_enabled E f s).trace) := by
  refine ⟨?_, ?_, ?_⟩
  · rintro hne ⟨c, hv⟩ henb
    rw [load_extensions_unfold E exts c s hne hv]
    exact mem_disable_with E _ s henb
  · intro path entry v hvr henb
    rw [load_extension_eq_singleton]
    have hv : validate_inputs [(path, entry)] = .ok [v] := by
      simp [validate_inputs, hvr]
    rw [load_extensions_unfold E [(path, entry)] [v] s (by simp) hv]
    exact mem_disable_with E _ s henb
  · intro henb hf
    rw [with_run_panicked E f s p s2 t2 henb hf]
    exact ⟨rfl, by simp [Outcome.trace, mem_enable_trace]⟩

/-- Witness for C1 at concrete inputs: a one-element batch on `okEngine`, the
same call through `load_extension`, and a panicking closure under the guard. -/
theorem disable_invoked_on_every_exit_witness :
    NativeCall.enableCall false ∈
        (load_extensions okEngine [([1], none)] false).trace ∧
    NativeCall.enableCall false ∈ (load_extension okEngine [1] none false).trace ∧
    (with_extension_enabled okEngine
        (fun st => (Outcome.panicked 7 st [] : Outcome Bool Unit))
        false).panicPayload = some 7 ∧
    NativeCall.enableCall false ∈
      (with_extension_enabled okEngine
        (fun st => (Outcome.panicked 7 st [] : Outcome Bool Unit)) false).trace := by
  obtain ⟨h1, h2, h3⟩ := disable_invoked_on_every_exit okEngine false [([1], none)]
    (fun st => (Outcome.panicked 7 st [] : Outcome Bool Unit)) 7 true []
  obtain ⟨h3a, h3b⟩ := h3 rfl rfl
  exact ⟨h1 (by simp) ⟨[([1], none)], rfl⟩ rfl, h2 [1] none ([1], none) rfl rfl,
    h3a, h3b⟩

/-- Claim C2: error precedence of `load_extensions` on a non-empty validated
batch: (i) an enable failure is returned immediately and the disable call is
never attempted — the full native-call trace is just the enable call and the
errmsg fetch; (ii) a load failure is returned even when the subsequent
disable call also fails (nothing is assumed about the disable status, whose
error is dropped); (iii) if all loads succeed but the disable call fails,
the disable error is returned. -/
theorem error_precedence {σ : Type} (E : Engine σ) (exts c : List Request)
    (s : σ) (e : LoadExtensionError) (s2 : σ) (t2 : Trace)
    (hne : exts ≠ []) (hv : validate_inputs exts = .ok c) :
    (E.enableRC s true ≠ SQLITE_OK →
      load_extensions E exts s =
        .ret (.error (.EnableFailed (E.errmsg (E.enableStep s true))))
          (E.enableStep s true) [.enableCall true, .errmsgCall])
    ∧ (E.enableRC s true = SQLITE_OK →
      loadLoop E c (E.enableStep s true) = (.error e, s2, t2) →
      ∃ t3, load_extensions E exts s = .ret (.error e) (E.enableStep s2 false) t3)
    ∧ (E.enableRC s true = SQLITE_OK →
      loadLoop E c (E.enableStep s true) = (.ok (), s2, t2) →
      E.enableRC s2 false ≠ SQLITE_OK →
      ∃ t3, load_extensions E exts s =
        .ret (.error (.EnableFailed (E.errmsg (E.enableStep s2 false))))
          (E.enableStep s2 false) t3) := by
  refine ⟨?_, ?_, ?_⟩
  · intro henb
    rw [load_extensions_unfold E exts c s hne hv]
    exact with_run_enable_fail E _ s henb
  · intro henb hl
    rw [load_extensions_unfold E exts c s hne hv]
    exact ⟨_, with_run_inner_error E _ s e s2 t2 henb (by simp [hl])⟩
  · intro henb hl hd
    rw [load_extensions_unfold E exts c s hne hv]
    refine ⟨[NativeCall.enableCall true] ++ t2 ++
      (enable_load_extension E false s2).2.2, ?_⟩
    rw [with_run_inner_ok E _ s () s2 t2 henb (by simp [hl])]
    simp [enable_load_extension, hd, Except.bind]

/-- Witness for C2 at concrete inputs: the three precedence branches shown
on one-element batches over engines failing at the enable step, at the load
step, and at the disable step respectively. -/
theorem error_precedence_witness :
    load_extensions enableFailEngine [([1], none)] false =
      .ret (.error (.EnableFailed [101])) true [.enableCall true, .errmsgCall] ∧
    (∃ t3, load_extensions loadFailEngine [([1], none)] false =
      .ret (.error (.LoadFailed [9])) false t3) ∧
    (∃ t3, load_extensions disableFailEngine [([1], none)] false =
      .ret (.error (.EnableFailed [101])) false t3) := by
  refine ⟨?_, ?_, ?_⟩
  · exact (error_precedence enableFailEngine [([1], none)] [([1], none)] false
      .InvalidPath false [] (by simp) rfl).1 (by decide)
  · exact (error_precedence loadFailEngine [([1], none)] [([1], none)] false
      (.LoadFailed [9]) true [.loadCall [1] none, .freeCall] (by simp) rfl).2.1
      rfl rfl
  · exact (error_precedence disableFailEngine [([1], none)] [([1], none)] false
      .InvalidPath true [.loadCall [1] none] (by simp) rfl).2.2 rfl rfl (by decide)

lemma validateRequest_error_shape {r : Request} {err : LoadExtensionError}
    (h : validateRequest r = .error err) :
    err = .InvalidPath ∨ err = .InvalidEntryPoint := by
  obtain ⟨p, e⟩ := r
  unfold validateRequest at h
  cases hp : cstringNew p with
  | none =>
    simp only [hp, Except.error.injEq] at h
    exact Or.inl h.symm
  | some cp =>
    cases e with
    | none => simp [hp] at h
    | some ep =>
      cases hep : cstringNew ep with
      | none =>
        simp only [hp, hep, Except.error.injEq] at h
        exact Or.inr h.symm
      | some ce => simp [hp, hep] at h

lemma validate_inputs_error_at (exts : List Request) (k : ℕ)
    (err : LoadExtensionError) (hk : k < exts.length)
    (hok : ∀ i, i < k → ∃ v, validateRequest (exts.getD i ([], none)) = .ok v)
    (herr : validateRequest (exts.getD k ([], none)) = .error err) :
    validate_inputs exts = .error err := by
  induction exts generalizing k with
  | nil => simp at hk
  | cons r rest ih =>
    cases k with
    | zero =>
      simp only [List.getD_cons_zero] at herr
      unfold validate_inputs
      rw [herr]
    | succ j =>
      obtain ⟨v, hv⟩ := hok 0 (Nat.succ_pos j)
      simp only [List.getD_cons_zero] at hv
      have hk2 : j < rest.length := by
        simp only [List.length_cons] at hk
        omega
      have hok2 : ∀ i, i < j → ∃ w, validateRequest (rest.getD i ([], none)) = .ok w := by
        intro i hi
        have := hok (i + 1) (Nat.succ_lt_succ hi)
        simpa using this
      have herr2 : validateRequest (rest.getD j ([], none)) = .error err := by
        simpa using herr
      unfold validate_inputs
      rw [hv, ih j hk2 hok2 herr2]

lemma load_extensions_val_error {σ : Type} (E : Engine σ) (exts : List Request)
    (s : σ) (err : LoadExtensionError) (hne : exts ≠ [])
    (hv : validate_inputs exts = .error err) :
    load_extensions E exts s = .ret (.error err) s [] := by
  have hie : exts.isEmpty = false := by
    cases exts with
    | nil => exact absurd rfl hne
    | cons a l => rfl
  unfold load_extensions
  rw [hie, hv]
  simp

/-- Claim C3: for every batch whose first malformed request (in sequence
order) sits at index `k`, `load_extensions` returns that request's
validation error (`InvalidPath` or `InvalidEntryPoint`), leaves the engine
state untouched, and performs no native call at all — the trace is empty, so
neither a toggle call nor a load call occurs, regardless of `k`. -/
theorem validation_error_no_native_call {σ : Type} (E : Engine σ)
    (exts : List Request) (s : σ) (k : ℕ) (err : LoadExtensionError)
    (hk : k < exts.length)
    (hok : ∀ i, i < k → ∃ v, validateRequest (exts.getD i ([], none)) = .ok v)
    (herr : validateRequest (exts.getD k ([], none)) = .error err) :
    load_extensions E exts s = .ret (.error err) s [] ∧
    (err = .InvalidPath ∨ err = .InvalidEntryPoint) := by
  have hne : exts ≠ [] := by
    intro h
    rw [h] at hk
    simp at hk
  exact ⟨load_extensions_val_error E exts s err hne
      (validate_inputs_error_at exts k err hk hok herr),
    validateRequest_error_shape herr⟩

/-- Witness for C3: a batch whose second request has a nul byte in its entry
point is rejected with `InvalidEntryPoint` and an empty native-call trace. -/
theorem validation_error_no_native_call_witness :
    load_extensions okEngine [([1], none), ([1], some [0])] false =
      .ret (.error .InvalidEntryPoint) false [] ∧
    (LoadExtensionError.InvalidEntryPoint = .InvalidPath ∨
      LoadExtensionError.InvalidEntryPoint = .InvalidEntryPoint) :=
  validation_error_no_native_call okEngine [([1], none), ([1], some [0])] false 1
    .InvalidEntryPoint (by decide)
    (fun i hi => by
      rw [Nat.lt_one_iff] at hi
      subst hi
      exact ⟨([1], none), rfl⟩)
    rfl

/-- Counterexample to claim C10 as stated: in the batch
`[([1], some [0]), ([0], some [0])]` the second request's path `[0]` contains
a nul byte, yet `load_extensions` returns `InvalidEntryPoint` (the error of
the earlier malformed request), not `InvalidPath`. -/
theorem path_before_entry_counterexample :
    hasNulByte [0] = true ∧
    load_extensions okEngine [([1], some [0]), ([0], some [0])] false =
      .ret (.error .InvalidEntryPoint) false [] ∧
    LoadExtensionError.InvalidEntryPoint ≠ LoadExtensionError.InvalidPath :=
  ⟨rfl, rfl, by decide⟩

/-- Claim C10 (amended): within each single request the path is validated
before the entry point. `load_extension` on a path with a nul byte returns
`InvalidPath` whatever the entry point of the request (even one that also
contains a nul byte); `load_extensions` does so whenever the request whose
path contains the nul byte is the first malformed request of the batch. -/
theorem path_checked_before_entry {σ : Type} (E : Engine σ) (s : σ)
    (path : RStr) (entry : Option RStr) (exts : List Request) (k : ℕ) :
    (hasNulByte path = true →
      load_extension E path entry s = .ret (.error .InvalidPath) s []) ∧
    (k < exts.length →
      (∀ i, i < k → ∃ v, validateRequest (exts.getD i ([], none)) = .ok v) →
      hasNulByte (exts.getD k ([], none)).1 = true →
      load_extensions E exts s = .ret (.error .InvalidPath) s []) := by
  constructor
  · intro hp
    unfold load_extension
    rw [show cstringNew path = none from by simp [cstringNew, hp]]
  · intro hk hok hp
    have herr : validateRequest (exts.getD k ([], none)) = .error .InvalidPath := by
      unfold validateRequest
      rw [show cstringNew (exts.getD k ([], none)).1 = none from by
        unfold cstringNew
        rw [hp]
        simp]
    have hne : exts ≠ [] := by
      intro h
      rw [h] at hk
      simp at hk
    exact load_extensions_val_error E exts s _ hne
      (validate_inputs_error_at exts k _ hk hok herr)

/-- Witness for the amended C10: a single request whose path and entry point
both contain nul bytes yields `InvalidPath`, and a batch whose first
malformed request has a nul path (with a nul entry point too) yields
`InvalidPath` from `load_extensions`. -/
theorem path_checked_before_entry_witness :
    load_extension okEngine [0] (some [0]) false =
      .ret (.error .InvalidPath) false [] ∧
    load_extensions okEngine [([1], none), ([0], some [0])] false =
      .ret (.error .InvalidPath) false [] := by
  obtain ⟨h1, h2⟩ := path_checked_before_entry okEngine false [0] (some [0])
    [([1], none), ([0], some [0])] 1
  exact ⟨h1 rfl, h2 (by decide)
    (fun i hi => by
      rw [Nat.lt_one_iff] at hi
      subst hi
      exact ⟨([1], none), rfl⟩)
    rfl⟩

lemma raw_load_ok {σ : Type} (E : Engine σ) (p : RStr) (en : Option RStr)
    (s : σ) (h : E.loadRC s p en = SQLITE_OK) :
    raw_load_extension E p en s = (.ok (), E.loadStep s p en, [.loadCall p en]) := by
  simp [raw_load_extension, h]

lemma raw_load_error {σ : Type} (E : Engine σ) (p : RStr) (en : Option RStr)
    (s : σ) (h : E.loadRC s p en ≠ SQLITE_OK) :
    ∃ e t, raw_load_extension E p en s =
        (.error e, E.loadStep s p en, NativeCall.loadCall p en :: t) ∧
      loadCallsOf (NativeCall.loadCall p en :: t) = [(p, en)] := by
  cases hem : E.loadErrMsg s p en with
  | none =>
    exact ⟨.LoadFailed (E.errmsg (E.loadStep s p en)), [.errmsgCall],
      by simp [raw_load_extension, h, hem], rfl⟩
  | some m =>
    exact ⟨.LoadFailed m, [.freeCall],
      by simp [raw_load_extension, h, hem], rfl⟩

lemma loadCallsOf_load_cons (p : RStr) (en : Option RStr) (t : Trace) :
    loadCallsOf (NativeCall.loadCall p en :: t) = (p, en) :: loadCallsOf t := rfl

lemma loadCallsOf_enable_cons (b : Bool) (t : Trace) :
    loadCallsOf (NativeCall.enableCall b :: t) = loadCallsOf t := rfl

lemma loadCallsOf_append (t1 t2 : Trace) :
    loadCallsOf (t1 ++ t2) = loadCallsOf t1 ++ loadCallsOf t2 := by
  simp [loadCallsOf]

lemma loadCallsOf_enable_trace {σ : Type} (E : Engine σ) (b : Bool) (s : σ) :
    loadCallsOf (enable_load_extension E b s).2.2 = [] := by
  by_cases h : E.enableRC s b = SQLITE_OK <;>
    simp [enable_load_extension, h, loadCallsOf]

lemma loadLoop_fail_at {σ : Type} (E : Engine σ) (exts : List Request) (s : σ)
    (k : ℕ) (hk : k < exts.length)
    (hok : ∀ i, i < k →
      E.loadRC (stateAfterLoads E s (exts.take i))
        (exts.getD i ([], none)).1 (exts.getD i ([], none)).2 = SQLITE_OK)
    (hfail : E.loadRC (stateAfterLoads E s (exts.take k))
      (exts.getD k ([], none)).1 (exts.getD k ([], none)).2 ≠ SQLITE_OK) :
    ∃ e s1 t, loadLoop E exts s = (.error e, s1, t) ∧
      loadCallsOf t = exts.take (k + 1) ∧
      (raw_load_extension E (exts.getD k ([], none)).1
        (exts.getD k ([], none)).2 (stateAfterLoads E s (exts.take k))).1
        = .error e := by
  induction exts generalizing s k with
  | nil => simp at hk
  | cons r rest ih =>
    cases k with
    | zero =>
      have hfail0 : E.loadRC s r.1 r.2 ≠ SQLITE_OK := by
        simpa [stateAfterLoads] using hfail
      obtain ⟨e, t, hr, hc⟩ := raw_load_error E r.1 r.2 s hfail0
      refine ⟨e, E.loadStep s r.1 r.2, NativeCall.loadCall r.1 r.2 :: t, ?_, ?_, ?_⟩
      · unfold loadLoop
        rw [hr]
      · simpa using hc
      · simp only [List.take_zero, List.getD_cons_zero, List.take_succ_cons]
        have hs : stateAfterLoads E s ([] : List Request) = s := rfl
        rw [hs, hr]
    | succ j =>
      have h0 : E.loadRC s r.1 r.2 = SQLITE_OK := by
        simpa [stateAfterLoads] using hok 0 (Nat.succ_pos j)
      have hr := raw_load_ok E r.1 r.2 s h0
      have hk2 : j < rest.length := by
        simp only [List.length_cons] at hk
        omega
      have hok2 : ∀ i, i < j →
          E.loadRC (stateAfterLoads E (E.loadStep s r.1 r.2) (rest.take i))
            (rest.getD i ([], none)).1 (rest.getD i ([], none)).2 = SQLITE_OK := by
        intro i hi
        have := hok (i + 1) (Nat.succ_lt_succ hi)
        simpa [stateAfterLoads, List.take_succ_cons] using this
      have hfail2 : E.loadRC
          (stateAfterLoads E (E.loadStep s r.1 r.2) (rest.take j))
          (rest.getD j ([], none)).1 (rest.getD j ([], none)).2 ≠ SQLITE_OK := by
        simpa [stateAfterLoads, List.take_succ_cons] using hfail
      obtain ⟨e, s1, t, hll, hc, hrawk⟩ := ih (E.loadStep s r.1 r.2) j hk2 hok2 hfail2
      refine ⟨e, s1, [NativeCall.loadCall r.1 r.2] ++ t, ?_, ?_, ?_⟩
      · unfold loadLoop
        simp only [hr, hll]
      · rw [List.singleton_append, loadCallsOf_load_cons, hc, List.take_succ_cons,
          Prod.mk.eta]
      · simpa [stateAfterLoads, List.take_succ_cons] using hrawk

/-- Claim C4: for a validated non-empty batch whose enable step succeeds and
whose request at index `k` is the first one whose load call fails,
`load_extensions` performs load calls for exactly the requests at indices
`0..k` in sequence order (requests `k+1..n-1` are never attempted), and the
error it returns is the load error that `raw_load_extension` produces for
request `k` at the state it is reached in. -/
theorem load_stops_at_first_failure {σ : Type} (E : Engine σ)
    (exts : List Request) (s : σ) (k : ℕ)
    (hne : exts ≠ []) (hc : ∃ c, validate_inputs exts = .ok c)
    (henb : E.enableRC s true = SQLITE_OK)
    (hk : k < exts.length)
    (hok : ∀ i, i < k →
      E.loadRC (stateAfterLoads E (E.enableStep s true) (exts.take i))
        (exts.getD i ([], none)).1 (exts.getD i ([], none)).2 = SQLITE_OK)
    (hfail : E.loadRC (stateAfterLoads E (E.enableStep s true) (exts.take k))
      (exts.getD k ([], none)).1 (exts.getD k ([], none)).2 ≠ SQLITE_OK) :
    ∃ e sf t, load_extensions E exts s = .ret (.error e) sf t ∧
      loadCallsOf t = exts.take (k + 1) ∧
      (raw_load_extension E (exts.getD k ([], none)).1
        (exts.getD k ([], none)).2
        (stateAfterLoads E (E.enableStep s true) (exts.take k))).1
        = .error e := by
  obtain ⟨c, hv⟩ := hc
  have hce : c = exts := validate_inputs_ok_eq hv
  subst hce
  obtain ⟨e, s2, t2, hll, hcalls, hrawk⟩ :=
    loadLoop_fail_at E c (E.enableStep s true) k hk hok hfail
  rw [load_extensions_unfold E c c s hne hv]
  refine ⟨e, E.enableStep s2 false, _,
    with_run_inner_error E _ s e s2 t2 henb (by simp [hll]), ?_, hrawk⟩
  rw [loadCallsOf_append, loadCallsOf_append, loadCallsOf_enable_cons,
    loadCallsOf_enable_trace, hcalls]
  simp [loadCallsOf]

/-- Witness for C4: a two-element batch on an engine that fails exactly on
path `[2]`; the first load succeeds, the second fails, both are attempted
and the failure of request 1 is returned. -/
theorem load_stops_at_first_failure_witness :
    ∃ e sf t,
      load_extensions failOnPath2Engine [([1], none), ([2], none)] false =
        .ret (.error e) sf t ∧
      loadCallsOf t = [([1], none), ([2], none)] ∧
      (raw_load_extension failOnPath2Engine [2] none
        (stateAfterLoads failOnPath2Engine
          (failOnPath2Engine.enableStep false true)
          ([([1], none), ([2], none)].take 1))).1 = .error e :=
  load_stops_at_first_failure failOnPath2Engine [([1], none), ([2], none)]
    false 1 (by simp) ⟨[([1], none), ([2], none)], rfl⟩ rfl (by decide)
    (fun i hi => by
      rw [Nat.lt_one_iff] at hi
      subst hi
      rfl)
    (by decide)

/-- Claim C6: for a single load call with a non-success status, if the
engine wrote a non-null message into the out-parameter that message is
copied into the `LoadFailed` error and the engine buffer is released exactly
once (`freeCall` appears exactly once in the trace); if the out-parameter is
null the connection's last-error text (`errmsg`) is used instead; on a
success status the out-parameter buffer is never touched or freed (the trace
is the bare load call, with zero `freeCall`s). -/
theorem load_error_message_handling {σ : Type} (E : Engine σ) (p : RStr)
    (en : Option RStr) (s : σ) :
    (E.loadRC s p en ≠ SQLITE_OK → ∀ m, E.loadErrMsg s p en = some m →
      raw_load_extension E p en s =
        (.error (.LoadFailed m), E.loadStep s p en,
          [.loadCall p en, .freeCall]) ∧
      (raw_load_extension E p en s).2.2.count NativeCall.freeCall = 1)
    ∧ (E.loadRC s p en ≠ SQLITE_OK → E.loadErrMsg s p en = none →
      raw_load_extension E p en s =
        (.error (.LoadFailed (E.errmsg (E.loadStep s p en))), E.loadStep s p en,
          [.loadCall p en, .errmsgCall]) ∧
      (raw_load_extension E p en s).2.2.count NativeCall.freeCall = 0)
    ∧ (E.loadRC s p en = SQLITE_OK →
      raw_load_extension E p en s = (.ok (), E.loadStep s p en, [.loadCall p en]) ∧
      (raw_load_extension E p en s).2.2.count NativeCall.freeCall = 0) := by
  refine ⟨?_, ?_, ?_⟩
  · intro h m hm
    have heq : raw_load_extension E p en s =
        (.error (.LoadFailed m), E.loadStep s p en,
          [.loadCall p en, .freeCall]) := by
      simp [raw_load_extension, h, hm]
    refine ⟨heq, ?_⟩
    rw [heq]
    rfl
  · intro h hm
    have heq : raw_load_extension E p en s =
        (.error (.LoadFailed (E.errmsg (E.loadStep s p en))), E.loadStep s p en,
          [.loadCall p en, .errmsgCall]) := by
      simp [raw_load_extension, h, hm]
    refine ⟨heq, ?_⟩
    rw [heq]
    rfl
  · intro h
    have heq := raw_load_ok E p en s h
    refine ⟨heq, ?_⟩
    rw [heq]
    rfl

/-- Witness for C6: the three status/out-parameter combinations exercised on
concrete engines. -/
theorem load_error_message_handling_witness :
    (raw_load_extension loadFailEngine [1] none false =
        (.error (.LoadFailed [9]), false, [.loadCall [1] none, .freeCall]) ∧
      (raw_load_extension loadFailEngine [1] none false).2.2.count
        NativeCall.freeCall = 1) ∧
    (raw_load_extension loadFailNoMsgEngine [1] none false =
        (.error (.LoadFailed [101]), false, [.loadCall [1] none, .errmsgCall]) ∧
      (raw_load_extension loadFailNoMsgEngine [1] none false).2.2.count
        NativeCall.freeCall = 0) ∧
    (raw_load_extension okEngine [1] none false =
        (.ok (), false, [.loadCall [1] none]) ∧
      (raw_load_extension okEngine [1] none false).2.2.count
        NativeCall.freeCall = 0) := by
  refine ⟨?_, ?_, ?_⟩
  · exact (load_error_message_handling loadFailEngine [1] none false).1
      (by decide) [9] rfl
  · exact (load_error_message_handling loadFailNoMsgEngine [1] none false).2.1
      (by decide) rfl
  · exact (load_error_message_handling okEngine [1] none false).2.2 rfl

/-- Claim C8: on an engine that tolerates redundant toggles (every toggle
call returns the success status), calling `enable_load_extension` twice in a
row with the same boolean state succeeds both times, and an enable followed
by a disable each succeed independently. -/
theorem enable_toggle_idempotent {σ : Type} (E : Engine σ) (s : σ) (b : Bool)
    (h : ∀ st c, E.enableRC st c = SQLITE_OK) :
    ((enable_load_extension E b s).1 = .ok () ∧
      (enable_load_extension E b (enable_load_extension E b s).2.1).1 = .ok ()) ∧
    ((enable_load_extension E true s).1 = .ok () ∧
      (enable_load_extension E false
        (enable_load_extension E true s).2.1).1 = .ok ()) := by
  constructor
  · exact ⟨by simp [enable_load_extension, h], by simp [enable_load_extension, h]⟩
  · exact ⟨by simp [enable_load_extension, h], by simp [enable_load_extension, h]⟩

/-- Witness for C8 on the always-succeeding engine. -/
theorem enable_toggle_idempotent_witness :
    ((enable_load_extension okEngine true false).1 = .ok () ∧
      (enable_load_extension okEngine true
        (enable_load_extension okEngine true false).2.1).1 = .ok ()) ∧
    ((enable_load_extension okEngine true false).1 = .ok () ∧
      (enable_load_extension okEngine false
        (enable_load_extension okEngine true false).2.1).1 = .ok ()) :=
  enable_toggle_idempotent okEngine false true (fun _ _ => rfl)

lemma wasm_load_extension_eq (p : RStr) (en : Option RStr) :
    wasm_load_extension p en =
      match validateRequest (p, en) with
      | .error e => .error e
      | .ok _ => .error .UnsupportedPlatform := by
  unfold wasm_load_extension validateRequest
  cases hp : cstringNew p with
  | none => rfl
  | some cp =>
    cases en with
    | none => rfl
    | some ep =>
      cases hep : cstringNew ep with
      | none => simp [hep]
      | some ce => simp [hep]

/-- Claim C9: on WASM targets, `load_extension` and `load_extensions` fully
validate their string inputs first — a malformed input yields its precise
validation error — and only once validation passes do they return
`UnsupportedPlatform` (for a non-empty batch); `enable_load_extension`
returns `UnsupportedPlatform` unconditionally. -/
theorem wasm_validate_first (b : Bool) (p : RStr) (en : Option RStr)
    (exts : List Request) :
    wasm_enable_load_extension b = .error .UnsupportedPlatform ∧
    (∀ err, validateRequest (p, en) = .error err →
      wasm_load_extension p en = .error err) ∧
    (∀ v, validateRequest (p, en) = .ok v →
      wasm_load_extension p en = .error .UnsupportedPlatform) ∧
    (∀ err, exts ≠ [] → validate_inputs exts = .error err →
      wasm_load_extensions exts = .error err) ∧
    (∀ c, exts ≠ [] → validate_inputs exts = .ok c →
      wasm_load_extensions exts = .error .UnsupportedPlatform) := by
  refine ⟨rfl, ?_, ?_, ?_, ?_⟩
  · intro err h
    rw [wasm_load_extension_eq, h]
  · intro v h
    rw [wasm_load_extension_eq, h]
  · intro err hne h
    have hie : exts.isEmpty = false := by
      cases exts with
      | nil => exact absurd rfl hne
      | cons a l => rfl
    unfold wasm_load_extensions
    rw [hie, h]
    simp
  · intro c hne h
    have hie : exts.isEmpty = false := by
      cases exts with
      | nil => exact absurd rfl hne
      | cons a l => rfl
    unfold wasm_load_extensions
    rw [hie, h]
    simp

/-- Witness for C9: each conjunct exercised at concrete inputs, with
malformed paths, malformed entry points, and well-formed requests. -/
theorem wasm_validate_first_witness :
    wasm_enable_load_extension true = .error .UnsupportedPlatform ∧
    wasm_load_extension [0] none = .error .InvalidPath ∧
    wasm_load_extension [1] (some [0]) = .error .InvalidEntryPoint ∧
    wasm_load_extension [1] (some [2]) = .error .UnsupportedPlatform ∧
    wasm_load_extensions [([0], none)] = .error .InvalidPath ∧
    wasm_load_extensions [([1], none)] = .error .UnsupportedPlatform := by
  refine ⟨(wasm_validate_first true [0] none []).1, ?_, ?_, ?_, ?_, ?_⟩
  · exact (wasm_validate_first true [0] none []).2.1 .InvalidPath rfl
  · exact (wasm_validate_first true [1] (some [0]) []).2.1 .InvalidEntryPoint rfl
  · exact (wasm_validate_first true [1] (some [2]) []).2.2.1 ([1], some [2]) rfl
  · exact (wasm_validate_first true [1] none [([0], none)]).2.2.2.1 .InvalidPath
      (by simp) rfl
  · exact (wasm_validate_first true [1] none [([1], none)]).2.2.2.2 [([1], none)]
      (by simp) rfl

end DieselLoadExtension
